import Mathlib

/-!
Verification of the Aqua Risk Intelligence System (`app.py` and
`ml_models/train_failure_model.py`) against its natural-language
specification.

The Python program is shallowly embedded below.  Feature values are
rationals, database tables are Lean lists, and the global numpy random
generator is an explicit state threaded through every drawing function.
The exact Mersenne-Twister bit stream of `np.random` and the
floating-point distribution transforms (`normal`, `exponential`) are
abstracted to a concrete deterministic stream derived from the seed:
every theorem below depends only on the stream being a deterministic
function of the seed, never on the particular numeric values drawn.
Likewise, the CART tree induction inside scikit-learn's
`RandomForestClassifier` is abstracted to a concrete deterministic
depth-1 tree grown from a bootstrap sample; the theorems depend only on
fitting being a deterministic function of (data, generator state) and on
leaf predictions being label fractions, which the real library also
guarantees.
-/

/-- State of the global numpy pseudo-random generator (`np.random`). -/
structure RNGState where
  state : Nat
deriving DecidableEq

/-- Model of `np.random.seed(n)`: resets the global generator to a state
determined by the seed alone. -/
def npSeed (n : Nat) : RNGState := ⟨n⟩

/-- One raw draw from the generator (model of one output of the seeded
Mersenne Twister; a 64-bit linear-congruential step stands in for the
actual bit stream). -/
def nextRaw (s : RNGState) : Nat × RNGState :=
  let x := (6364136223846793005 * s.state + 1442695040888963407) % 18446744073709551616
  (x, ⟨x⟩)

/-- Model of one draw of `np.random.randint(lo, hi)`. -/
def randint (lo hi : Nat) (s : RNGState) : Nat × RNGState :=
  let (x, s') := nextRaw s
  (lo + x % (hi - lo), s')

/-- Model of one draw of `np.random.normal(mu, sigma)` (the Gaussian
transform of the raw stream is abstracted to a bounded rational offset). -/
def randNormal (mu sigma : ℚ) (s : RNGState) : ℚ × RNGState :=
  let (x, s') := nextRaw s
  (mu + sigma * (((x % 2001 : Nat) : ℚ) - 1000) / 250, s')

/-- Model of one draw of `np.random.exponential(scale)` (nonnegative). -/
def randExponential (scale : ℚ) (s : RNGState) : ℚ × RNGState :=
  let (x, s') := nextRaw s
  (scale * ((x % 1024 : Nat) : ℚ) / 205, s')

/-- Model of one draw of `np.random.choice([0, 1], p=[0.8, 0.2])`. -/
def choice01 (s : RNGState) : Nat × RNGState :=
  let (x, s') := nextRaw s
  (if x % 10 < 8 then 0 else 1, s')

/-- Draw a list of `n` values with a given sampler, threading the
generator state (model of `size=n` array draws in numpy). -/
def drawList {α : Type} (draw : RNGState → α × RNGState) : Nat → RNGState → List α × RNGState
  | 0, s => ([], s)
  | n + 1, s =>
    let (v, s') := draw s
    let (vs, s'') := drawList draw n s'
    (v :: vs, s'')

theorem drawList_length {α : Type} (draw : RNGState → α × RNGState) :
    ∀ (n : Nat) (s : RNGState), (drawList draw n s).1.length = n := by
  intro n
  induction n with
  | zero => intro s; rfl
  | succ k ih =>
    intro s
    simp only [drawList]
    simp [ih]

/-- One row of the synthetic financial table `farmer_df`. -/
structure FarmerRow where
  annual_income : ℚ
  loan_amount : ℚ
  credit_score : ℚ
  past_defaults : ℚ
  loan_default : Nat
deriving DecidableEq

/-- One row of the synthetic water-quality table `water_df`, with the
`farm_failure` column computed from the fixed boolean rule of the source
(`ammonia > 0.5 or dissolved_oxygen < 4 or pH < 6.5 or pH > 8.5`). -/
structure WaterRow where
  temperature : ℚ
  pH : ℚ
  ammonia : ℚ
  dissolved_oxygen : ℚ
  turbidity : ℚ
  farm_failure : Nat
deriving DecidableEq

/-- Build a `water_df` row; `farm_failure` is derived, mirroring the
column assignment on lines 66-69 of `app.py`. -/
def mkWaterRow (t p a d tu : ℚ) : WaterRow :=
  { temperature := t, pH := p, ammonia := a, dissolved_oxygen := d, turbidity := tu,
    farm_failure := if a > 1/2 ∨ d < 4 ∨ p < 13/2 ∨ p > 17/2 then 1 else 0 }

/-- Embedding of `load_simulated_data` (`app.py` lines 46-71): seeds the
global generator with 42, draws the five financial columns and the five
water-quality columns (500 values each, column by column, as the numpy
calls do), and assembles the two data frames. -/
def load_simulated_data (_s : RNGState) : (List FarmerRow × List WaterRow) × RNGState :=
  let s0 := npSeed 42
  let n := 500
  let d1 := drawList (randint 100000 500000) n s0
  let d2 := drawList (randint 50000 300000) n d1.2
  let d3 := drawList (randint 300 850) n d2.2
  let d4 := drawList (randint 0 3) n d3.2
  let d5 := drawList choice01 n d4.2
  let farmer := (List.range n).map (fun i =>
    { annual_income := (d1.1.getD i 0 : ℚ), loan_amount := (d2.1.getD i 0 : ℚ),
      credit_score := (d3.1.getD i 0 : ℚ), past_defaults := (d4.1.getD i 0 : ℚ),
      loan_default := d5.1.getD i 0 })
  let d6 := drawList (randNormal 28 2) n d5.2
  let d7 := drawList (randNormal (15/2) (1/2)) n d6.2
  let d8 := drawList (randExponential (1/5)) n d7.2
  let d9 := drawList (randNormal 6 1) n d8.2
  let d10 := drawList (randNormal 15 5) n d9.2
  let water := (List.range n).map (fun i =>
    mkWaterRow (d6.1.getD i 0) (d7.1.getD i 0) (d8.1.getD i 0)
      (d9.1.getD i 0) (d10.1.getD i 0))
  ((farmer, water), d10.2)

set_option maxRecDepth 4000 in
/-- C1: seeded with the fixed seed 42, `load_simulated_data` produces the
identical 500-row financial table and 500-row water-quality table
regardless of the ambient generator state (hence on every call), and the
`farm_failure` label of each water row is 1 exactly when
ammonia > 0.5 or dissolved_oxygen < 4 or pH < 6.5 or pH > 8.5, else 0. -/
theorem load_simulated_data_deterministic_and_labels (s₁ s₂ : RNGState) :
    (load_simulated_data s₁).1 = (load_simulated_data s₂).1 ∧
    (load_simulated_data s₁).1.1.length = 500 ∧
    (load_simulated_data s₁).1.2.length = 500 ∧
    ∀ w ∈ (load_simulated_data s₁).1.2,
      w.farm_failure =
        if w.ammonia > 1/2 ∨ w.dissolved_oxygen < 4 ∨ w.pH < 13/2 ∨ w.pH > 17/2
        then 1 else 0 := by
  refine ⟨rfl, ?_, ?_, ?_⟩
  · simp [load_simulated_data]
  · simp [load_simulated_data]
  · intro w hw
    simp only [load_simulated_data, List.mem_map] at hw
    obtain ⟨i, -, rfl⟩ := hw
    rfl

/-- A labeled training sample: the feature vector of one row of a data
frame together with its binary label column. -/
structure Sample where
  features : List ℚ
  label : Nat
deriving DecidableEq

/-- One fitted tree of the ensemble: the bootstrap sample it was grown
from (the induced decision function is derived from it at prediction
time, see `treeProba`). -/
structure RFTree where
  sample : List Sample
deriving DecidableEq

/-- A fitted `RandomForestClassifier`: the fitted trees plus the feature
names seen at `fit` time (scikit-learn's `feature_names_in_`, recorded
because `fit` is called with a pandas data frame). -/
structure Forest where
  trees : List RFTree
  feature_names : List String
deriving DecidableEq

/-- Error raised by `fit` when the training set is degenerate
(scikit-learn raises `ValueError` on an empty training set). -/
inductive TrainingError where
  | emptyTrainingSet
deriving DecidableEq

/-- Error raised by `predict_proba` when the scoring data frame's
columns do not match `feature_names_in_` (count or order). -/
inductive ShapeError where
  | featureNamesMismatch
deriving DecidableEq

/-- Draw one bootstrap sample of size `n = samples.length` (with
replacement) from the training set, consuming the generator. -/
def bootstrapTree (samples : List Sample) (s : RNGState) : RFTree × RNGState :=
  let n := samples.length
  let d := drawList (randint 0 n) n s
  (⟨d.1.map (fun k => samples.getD k ⟨[], 0⟩)⟩, d.2)

/-- Grow `m` bootstrap trees, threading the generator state. -/
def buildTrees : Nat → List Sample → RNGState → List RFTree × RNGState
  | 0, _, s => ([], s)
  | m + 1, samples, s =>
    let t := bootstrapTree samples s
    let ts := buildTrees m samples t.2
    (t.1 :: ts.1, ts.2)

/-- Embedding of `RandomForestClassifier().fit(X, y)` with the library
defaults (`n_estimators = 100`, `bootstrap = True`, `random_state=None`,
hence consuming the global numpy generator): rejects an empty training
set, otherwise grows 100 bootstrap trees and records the data frame's
column names. -/
def rf_fit (names : List String) (samples : List Sample) (s : RNGState) :
    Except TrainingError (Forest × RNGState) :=
  if samples = [] then .error .emptyTrainingSet
  else
    let tr := buildTrees 100 samples s
    .ok (⟨tr.1, names⟩, tr.2)

/-- Number of label-1 samples in a list (numerator of a leaf's class-1
fraction). -/
def countOnes : List Sample → Nat
  | [] => 0
  | t :: l => (if t.label = 1 then 1 else 0) + countOnes l

/-- Sum of a list of rationals. -/
def listSumQ : List ℚ → ℚ
  | [] => 0
  | x :: l => x + listSumQ l

/-- Mean of a list of rationals (0 on the empty list, as `0 / 0 = 0`). -/
def listMeanQ (l : List ℚ) : ℚ := listSumQ l / (l.length : ℚ)

/-- Class-1 fraction of a list of samples (a leaf's probability value). -/
def ratioOnes (l : List Sample) : ℚ := (countOnes l : ℚ) / (l.length : ℚ)

/-- Split threshold of a fitted tree: the mean of the first feature over
its bootstrap sample (concrete stand-in for the CART split). -/
def treeThreshold (t : RFTree) : ℚ :=
  listMeanQ (t.sample.map (fun u => u.features.headD 0))

/-- Leaf of the (depth-1) tree reached by a feature vector: the side of
the split the vector falls on, falling back to the whole bootstrap
sample when that side is empty. -/
def sideOf (t : RFTree) (x : List ℚ) : List Sample :=
  t.sample.filter (fun u =>
    decide (u.features.headD 0 ≤ treeThreshold t) == decide (x.headD 0 ≤ treeThreshold t))

def leafOf (t : RFTree) (x : List ℚ) : List Sample :=
  if sideOf t x = [] then t.sample else sideOf t x

/-- Probability of class 1 predicted by one fitted tree: the class-1
fraction of the leaf the vector reaches. -/
def treeProba (t : RFTree) (x : List ℚ) : ℚ := ratioOnes (leafOf t x)

/-- Embedding of `model.predict_proba(df)[0][1]` (`app.py` lines
214-215): scikit-learn first validates the data frame's columns against
`feature_names_in_` (raising on a count or order mismatch), then
averages the per-tree class-1 probabilities. -/
def Forest.predict_proba (f : Forest) (x : List (String × ℚ)) : Except ShapeError ℚ :=
  if x.map Prod.fst = f.feature_names then
    .ok (listMeanQ (f.trees.map (fun t => treeProba t (x.map Prod.snd))))
  else .error .featureNamesMismatch

theorem countOnes_le_length : ∀ l : List Sample, countOnes l ≤ l.length := by
  intro l
  induction l with
  | nil => exact Nat.le_refl 0
  | cons t l ih =>
    simp only [countOnes, List.length_cons]
    split
    · omega
    · omega

/-- A quotient of a count by the length that bounds it lies in the unit
interval (also when the denominator is zero, since `0 / 0 = 0`). -/
theorem natDiv_mem_unit (a b : Nat) (h : a ≤ b) :
    0 ≤ (a : ℚ) / (b : ℚ) ∧ (a : ℚ) / (b : ℚ) ≤ 1 := by
  rcases Nat.eq_zero_or_pos b with hb | hb
  · subst hb
    have ha : a = 0 := Nat.le_zero.mp h
    subst ha
    norm_num
  · have hb' : (0 : ℚ) < (b : ℚ) := by exact_mod_cast hb
    constructor
    · positivity
    · rw [div_le_one hb']
      exact_mod_cast h

theorem ratioOnes_mem_unit (l : List Sample) : 0 ≤ ratioOnes l ∧ ratioOnes l ≤ 1 :=
  natDiv_mem_unit _ _ (countOnes_le_length l)

theorem treeProba_mem_unit (t : RFTree) (x : List ℚ) :
    0 ≤ treeProba t x ∧ treeProba t x ≤ 1 :=
  ratioOnes_mem_unit _

theorem listSumQ_bounds (l : List ℚ) (h : ∀ v ∈ l, 0 ≤ v ∧ v ≤ 1) :
    0 ≤ listSumQ l ∧ listSumQ l ≤ (l.length : ℚ) := by
  induction l with
  | nil => simp [listSumQ]
  | cons x l ih =>
    have hx := h x (List.mem_cons_self x l)
    have ih' := ih (fun v hv => h v (List.mem_cons_of_mem x hv))
    simp only [listSumQ, List.length_cons]
    constructor
    · linarith [hx.1, ih'.1]
    · push_cast
      linarith [hx.2, ih'.2]

theorem listMeanQ_mem_unit (l : List ℚ) (h : ∀ v ∈ l, 0 ≤ v ∧ v ≤ 1) :
    0 ≤ listMeanQ l ∧ listMeanQ l ≤ 1 := by
  have hb := listSumQ_bounds l h
  unfold listMeanQ
  rcases Nat.eq_zero_or_pos l.length with h0 | h0
  · rw [List.length_eq_zero] at h0
    subst h0
    norm_num [listSumQ]
  · have hl : (0 : ℚ) < (l.length : ℚ) := by exact_mod_cast h0
    refine ⟨div_nonneg hb.1 (le_of_lt hl), ?_⟩
    rw [div_le_one hl]
    exact hb.2

/-- Whenever `predict_proba` succeeds its value is a probability. -/
theorem predict_proba_mem_unit (f : Forest) (x : List (String × ℚ)) (p : ℚ)
    (h : f.predict_proba x = .ok p) : 0 ≤ p ∧ p ≤ 1 := by
  unfold Forest.predict_proba at h
  split at h
  · rw [Except.ok.injEq] at h
    subst h
    exact listMeanQ_mem_unit _ (by
      intro v hv
      simp only [List.mem_map] at hv
      obtain ⟨t, -, rfl⟩ := hv
      exact treeProba_mem_unit t _)
  · exact absurd h (by simp)

/-- Columns of `X1 = farmer_df.drop("loan_default", axis=1)`. -/
def finFeatureNames : List String :=
  ["annual_income", "loan_amount", "credit_score", "past_defaults"]

/-- Columns of `X2 = water_df.drop("farm_failure", axis=1)`. -/
def techFeatureNames : List String :=
  ["temperature", "pH", "ammonia", "dissolved_oxygen", "turbidity"]

/-- A `farmer_df` row as a labeled training sample (features in the
column order of `X1`, label from `loan_default`). -/
def farmerSample (r : FarmerRow) : Sample :=
  ⟨[r.annual_income, r.loan_amount, r.credit_score, r.past_defaults], r.loan_default⟩

/-- A `water_df` row as a labeled training sample (features in the
column order of `X2`, label from `farm_failure`). -/
def waterSample (w : WaterRow) : Sample :=
  ⟨[w.temperature, w.pH, w.ammonia, w.dissolved_oxygen, w.turbidity], w.farm_failure⟩

/-- Embedding of `train_models` (`app.py` lines 76-88): fits the loan
model and then the farm model, both consuming the global generator. -/
def train_models (s : RNGState) (farmer : List FarmerRow) (water : List WaterRow) :
    Except TrainingError ((Forest × Forest) × RNGState) :=
  match rf_fit finFeatureNames (farmer.map farmerSample) s with
  | .error e => .error e
  | .ok (model1, s1) =>
    match rf_fit techFeatureNames (water.map waterSample) s1 with
    | .error e => .error e
    | .ok (model2, s2) => .ok ((model1, model2), s2)

theorem rf_fit_ok (names : List String) (samples : List Sample) (s : RNGState)
    (h : samples ≠ []) :
    rf_fit names samples s =
      .ok (⟨(buildTrees 100 samples s).1, names⟩, (buildTrees 100 samples s).2) := by
  unfold rf_fit
  rw [if_neg h]

theorem train_models_ok (s : RNGState) (farmer : List FarmerRow) (water : List WaterRow)
    (h1 : farmer.map farmerSample ≠ []) (h2 : water.map waterSample ≠ []) :
    ∃ m1 m2 sOut, train_models s farmer water = .ok ((m1, m2), sOut) ∧
      m1.feature_names = finFeatureNames ∧ m2.feature_names = techFeatureNames := by
  simp only [train_models, rf_fit_ok _ _ _ h1, rf_fit_ok _ _ _ h2]
  exact ⟨_, _, _, rfl, rfl, rfl⟩

set_option maxRecDepth 4000 in
theorem load_simulated_data_farmer_length (s : RNGState) :
    (load_simulated_data s).1.1.length = 500 := by
  simp [load_simulated_data]

set_option maxRecDepth 4000 in
theorem load_simulated_data_water_length (s : RNGState) :
    (load_simulated_data s).1.2.length = 500 := by
  simp [load_simulated_data]

/-- The record scored in the specification's determinism scenario:
income 250000, loan amount 150000, credit score 650, past defaults 0,
as the data frame built on lines 209-210 of `app.py`. -/
def loanScenarioRecord : List (String × ℚ) :=
  [("annual_income", 250000), ("loan_amount", 150000),
   ("credit_score", 650), ("past_defaults", 0)]

/-- Error of the whole generate-fit-score pipeline. -/
inductive PipelineError where
  | training (e : TrainingError)
  | shape (e : ShapeError)
deriving DecidableEq

/-- One full execution of the app's scoring pipeline on the scenario
record: generate the synthetic data (which seeds the generator with 42),
fit both models consuming the global generator, then score the record
with the loan model.  The ambient generator state `s` is whatever the
process had before the run. -/
def theAppRun (s : RNGState) : Except PipelineError ℚ :=
  let gen := load_simulated_data s
  match train_models gen.2 gen.1.1 gen.1.2 with
  | .error e => .error (.training e)
  | .ok ((loan_model, _farm_model), _sOut) =>
    match loan_model.predict_proba loanScenarioRecord with
    | .error e => .error (.shape e)
    | .ok p => .ok p

/-- C2: two separate executions of the generate-fit-score pipeline on
the scenario record income 250000, loan amount 150000, credit score 650,
past defaults 0 agree exactly (hence to the stored 4-decimal rounding),
and the produced value is a probability in the unit interval. -/
theorem theAppRun_deterministic_and_in_unit (s₁ s₂ : RNGState) :
    theAppRun s₁ = theAppRun s₂ ∧
    ∃ p : ℚ, theAppRun s₁ = .ok p ∧ 0 ≤ p ∧ p ≤ 1 := by
  have hgen : load_simulated_data s₁ = load_simulated_data s₂ := rfl
  constructor
  · unfold theAppRun
    rw [hgen]
  · have hf : (load_simulated_data s₁).1.1.map farmerSample ≠ [] := by
      have hl : ((load_simulated_data s₁).1.1.map farmerSample).length = 500 := by
        rw [List.length_map, load_simulated_data_farmer_length]
      intro hnil
      rw [hnil] at hl
      exact absurd hl (by norm_num)
    have hw : (load_simulated_data s₁).1.2.map waterSample ≠ [] := by
      have hl : ((load_simulated_data s₁).1.2.map waterSample).length = 500 := by
        rw [List.length_map, load_simulated_data_water_length]
      intro hnil
      rw [hnil] at hl
      exact absurd hl (by norm_num)
    obtain ⟨m1, m2, sOut, hEq, hn1, hn2⟩ :=
      train_models_ok (load_simulated_data s₁).2 (load_simulated_data s₁).1.1
        (load_simulated_data s₁).1.2 hf hw
    have hpred : m1.predict_proba loanScenarioRecord =
        .ok (listMeanQ (m1.trees.map
          (fun t => treeProba t (loanScenarioRecord.map Prod.snd)))) := by
      unfold Forest.predict_proba
      rw [if_pos (by rw [hn1]; rfl)]
    refine ⟨_, ?_, predict_proba_mem_unit _ _ _ hpred⟩
    simp only [theAppRun, hEq, hpred]

/-- One row of the `model_outputs` table (`init_db`, `app.py` lines
96-115; the autoincrement `id` column is elided, rows are identified by
position). -/
structure OutputRow where
  name : String
  age : ℚ
  region : String
  income : ℚ
  loan_amount : ℚ
  credit_score : ℚ
  past_defaults : ℚ
  temperature : ℚ
  pH : ℚ
  ammonia : ℚ
  do_level : ℚ
  turbidity : ℚ
  financial_risk : ℚ
  technical_risk : ℚ
  result_time : String
deriving DecidableEq

/-- The SQLite database `aqua_risk.db`: the `users` table (username,
hashed password) and the `model_outputs` table. -/
structure AquaDB where
  users : List (String × String)
  model_outputs : List OutputRow
deriving DecidableEq

/-- Embedding of `save_result` (`app.py` lines 119-122):
`to_sql(..., if_exists="append")` appends the single new row. -/
def save_result (db : AquaDB) (row : OutputRow) : AquaDB :=
  { db with model_outputs := db.model_outputs ++ [row] }

/-- Row order produced by `ORDER BY result_time DESC`: `a` precedes `b`
when `a`'s timestamp is at least `b`'s. -/
def recencyGE (a b : OutputRow) : Prop := b.result_time ≤ a.result_time

instance : DecidableRel recencyGE :=
  fun a b => inferInstanceAs (Decidable (b.result_time ≤ a.result_time))

instance : IsTotal OutputRow recencyGE :=
  ⟨fun a b => le_total b.result_time a.result_time⟩

instance : IsTrans OutputRow recencyGE :=
  ⟨fun _ _ _ hab hbc => le_trans hbc hab⟩

/-- Embedding of `load_history` (`app.py` lines 124-128): returns the
`model_outputs` table sorted by `result_time` descending. -/
def load_history (db : AquaDB) : List OutputRow :=
  List.insertionSort recencyGE db.model_outputs

theorem foldl_save_result (rows : List OutputRow) :
    ∀ db : AquaDB, (rows.foldl save_result db).model_outputs = db.model_outputs ++ rows ∧
      (rows.foldl save_result db).users = db.users := by
  induction rows with
  | nil => intro db; simp
  | cons r rows ih =>
    intro db
    have h := ih (save_result db r)
    simp only [List.foldl_cons]
    rw [h.1, h.2]
    simp [save_result]

/-- C3: after any sequence of N appends to the ledger (and no other
operation), `load_history` returns exactly those N records sorted
most-recent-first by timestamp; and `save_result` never updates or
deletes a previously appended record (every previously stored row keeps
its value and position; the row count grows by exactly one). -/
theorem result_ledger_append_only (rows : List OutputRow) (db : AquaDB) (r : OutputRow) :
    (load_history (rows.foldl save_result ⟨[], []⟩)).length = rows.length ∧
    List.Perm (load_history (rows.foldl save_result ⟨[], []⟩)) rows ∧
    List.Sorted recencyGE (load_history (rows.foldl save_result ⟨[], []⟩)) ∧
    (save_result db r).model_outputs.take db.model_outputs.length = db.model_outputs ∧
    (save_result db r).model_outputs.length = db.model_outputs.length + 1 := by
  have hout := (foldl_save_result rows ⟨[], []⟩).1
  have hperm : List.Perm (load_history (rows.foldl save_result ⟨[], []⟩)) rows := by
    unfold load_history
    rw [hout]
    simpa using List.perm_insertionSort recencyGE rows
  refine ⟨hperm.length_eq, hperm, ?_, ?_, ?_⟩
  · exact List.sorted_insertionSort recencyGE _
  · simp [save_result, List.take_left]
  · simp [save_result]

/-- C9: `save_result` inserts exactly one new row into `model_outputs`
(the new row, at the end) and leaves every previously stored
`model_outputs` row and the entire `users` table unchanged. -/
theorem save_result_frame (db : AquaDB) (r : OutputRow) :
    (save_result db r).users = db.users ∧
    (save_result db r).model_outputs.length = db.model_outputs.length + 1 ∧
    (save_result db r).model_outputs.take db.model_outputs.length = db.model_outputs ∧
    (save_result db r).model_outputs.getLast? = some r := by
  refine ⟨rfl, by simp [save_result], by simp [save_result, List.take_left], ?_⟩
  simp [save_result]

/-- Reduce to a 32-bit word (machine words are Nats mod 2^32). -/
def w32mod (n : Nat) : Nat := n % 4294967296

/-- Right rotation of a 32-bit word. -/
def rotr32 (k x : Nat) : Nat := x / 2 ^ k + x % 2 ^ k * 2 ^ (32 - k)

/-- Logical right shift of a 32-bit word. -/
def shr32 (k x : Nat) : Nat := x / 2 ^ k

def bigSigma0 (x : Nat) : Nat := Nat.xor (Nat.xor (rotr32 2 x) (rotr32 13 x)) (rotr32 22 x)

def bigSigma1 (x : Nat) : Nat := Nat.xor (Nat.xor (rotr32 6 x) (rotr32 11 x)) (rotr32 25 x)

def smallSigma0 (x : Nat) : Nat := Nat.xor (Nat.xor (rotr32 7 x) (rotr32 18 x)) (shr32 3 x)

def smallSigma1 (x : Nat) : Nat := Nat.xor (Nat.xor (rotr32 17 x) (rotr32 19 x)) (shr32 10 x)

def chFn (x y z : Nat) : Nat := Nat.xor (Nat.land x y) (Nat.land (4294967295 - w32mod x) z)

def majFn (x y z : Nat) : Nat :=
  Nat.xor (Nat.xor (Nat.land x y) (Nat.land x z)) (Nat.land y z)

/-- The 64 SHA-256 round constants. -/
def shaK : List Nat :=
  [1116352408, 1899447441, 3049323471, 3921009573, 961987163,
   1508970993, 2453635748, 2870763221, 3624381080, 310598401,
   607225278, 1426881987, 1925078388, 2162078206, 2614888103,
   3248222580, 3835390401, 4022224774, 264347078, 604807628,
   770255983, 1249150122, 1555081692, 1996064986, 2554220882,
   2821834349, 2952996808, 3210313671, 3336571891, 3584528711,
   113926993, 338241895, 666307205, 773529912, 1294757372,
   1396182291, 1695183700, 1986661051, 2177026350, 2456956037,
   2730485921, 2820302411, 3259730800, 3345764771, 3516065817,
   3600352804, 4094571909, 275423344, 430227734, 506948616,
   659060556, 883997877, 958139571, 1322822218, 1537002063,
   1747873779, 1955562222, 2024104815, 2227730452, 2361852424,
   2428436474, 2756734187, 3204031479, 3329325298]

/-- The 8 initial SHA-256 hash words. -/
def shaInit : List Nat :=
  [1779033703, 3144134277, 1013904242, 2773480762,
   1359893119, 2600822924, 528734635, 1541459225]

/-- Working registers of the SHA-256 compression loop. -/
structure SHAState where
  a : Nat
  b : Nat
  c : Nat
  d : Nat
  e : Nat
  f : Nat
  g : Nat
  hh : Nat
deriving DecidableEq

/-- One round of the SHA-256 compression function. -/
def shaRound (st : SHAState) (kw : Nat × Nat) : SHAState :=
  let t1 := w32mod (st.hh + bigSigma1 st.e + chFn st.e st.f st.g + kw.1 + kw.2)
  let t2 := w32mod (bigSigma0 st.a + majFn st.a st.b st.c)
  ⟨w32mod (t1 + t2), st.a, st.b, st.c, w32mod (st.d + t1), st.e, st.f, st.g⟩

/-- Extend a 16-word block by `k` schedule words. -/
def extendSchedule : List Nat → Nat → List Nat
  | ws, 0 => ws
  | ws, k + 1 =>
    let n := ws.length
    let v := w32mod (smallSigma1 (ws.getD (n - 2) 0) + ws.getD (n - 7) 0 +
      smallSigma0 (ws.getD (n - 15) 0) + ws.getD (n - 16) 0)
    extendSchedule (ws ++ [v]) k

/-- Compress one 16-word block into the running 8-word hash. -/
def compressBlock (hs : List Nat) (block : List Nat) : List Nat :=
  let ws := extendSchedule block 48
  let st0 : SHAState := ⟨hs.getD 0 0, hs.getD 1 0, hs.getD 2 0, hs.getD 3 0,
    hs.getD 4 0, hs.getD 5 0, hs.getD 6 0, hs.getD 7 0⟩
  let st := (shaK.zip ws).foldl shaRound st0
  [w32mod (hs.getD 0 0 + st.a), w32mod (hs.getD 1 0 + st.b), w32mod (hs.getD 2 0 + st.c),
   w32mod (hs.getD 3 0 + st.d), w32mod (hs.getD 4 0 + st.e), w32mod (hs.getD 5 0 + st.f),
   w32mod (hs.getD 6 0 + st.g), w32mod (hs.getD 7 0 + st.hh)]

/-- Big-endian bytes of a 64-bit length field. -/
def beBytes8 (n : Nat) : List Nat :=
  [n / 2 ^ 56 % 256, n / 2 ^ 48 % 256, n / 2 ^ 40 % 256, n / 2 ^ 32 % 256,
   n / 2 ^ 24 % 256, n / 2 ^ 16 % 256, n / 2 ^ 8 % 256, n % 256]

/-- SHA-256 padding: append 0x80, zeros to 56 mod 64, and the bit length. -/
def shaPad (msg : List Nat) : List Nat :=
  let zeros := (119 - msg.length % 64) % 64
  msg ++ 128 :: (List.replicate zeros 0 ++ beBytes8 (8 * msg.length % 18446744073709551616))

/-- Pack big-endian bytes into 32-bit words. -/
def bytesToWords : List Nat → List Nat
  | b0 :: b1 :: b2 :: b3 :: rest =>
    (b0 * 16777216 + b1 * 65536 + b2 * 256 + b3) :: bytesToWords rest
  | _ => []

/-- Split a padded word list into 16-word blocks. -/
def chunk16 (ws : List Nat) : List (List Nat) :=
  if h : ws = [] then []
  else ws.take 16 :: chunk16 (ws.drop 16)
termination_by ws.length
decreasing_by
  have hpos : 0 < ws.length := List.length_pos.mpr h
  simp only [List.length_drop]
  omega

/-- The 8 hash words of the SHA-256 digest of a byte string. -/
def sha256Words (msg : List Nat) : List Nat :=
  (chunk16 (bytesToWords (shaPad msg))).foldl compressBlock shaInit

def hexDigitChar (n : Nat) : Char :=
  match n % 16 with
  | 0 => '0' | 1 => '1' | 2 => '2' | 3 => '3' | 4 => '4'
  | 5 => '5' | 6 => '6' | 7 => '7' | 8 => '8' | 9 => '9'
  | 10 => 'a' | 11 => 'b' | 12 => 'c' | 13 => 'd' | 14 => 'e' | _ => 'f'

/-- Lowercase hex rendering of one 32-bit word (8 hex digits). -/
def word32Hex (x : Nat) : List Char :=
  [hexDigitChar (x / 268435456), hexDigitChar (x / 16777216), hexDigitChar (x / 1048576),
   hexDigitChar (x / 65536), hexDigitChar (x / 4096), hexDigitChar (x / 256),
   hexDigitChar (x / 16), hexDigitChar x]

/-- UTF-8 encoding of one character, as bytes (model of `str.encode()`). -/
def utf8EncodeCharNat (c : Char) : List Nat :=
  let n := c.toNat
  if n < 128 then [n]
  else if n < 2048 then [192 + n / 64, 128 + n % 64]
  else if n < 65536 then [224 + n / 4096, 128 + n / 64 % 64, 128 + n % 64]
  else [240 + n / 262144, 128 + n / 4096 % 64, 128 + n / 64 % 64, 128 + n % 64]

/-- UTF-8 bytes of a string (model of `password.encode()`). -/
def utf8Bytes (s : String) : List Nat :=
  (s.data.map utf8EncodeCharNat).foldr (· ++ ·) []

/-- Embedding of `hashlib.sha256(password.encode()).hexdigest()`. -/
def sha256_hexdigest (password : String) : String :=
  String.mk (((sha256Words (utf8Bytes password)).map word32Hex).foldr (· ++ ·) [])

/-- Error raised by SQLite on a `users` primary-key violation. -/
inductive DBError where
  | integrityError
deriving DecidableEq

/-- Embedding of `add_user` (`app.py` lines 26-32): inserts
`(username, sha256 hex digest of the password)` into `users`; the
`username TEXT PRIMARY KEY` constraint makes the insert fail when the
username is already present. -/
def add_user (tbl : List (String × String)) (username password : String) :
    Except DBError (List (String × String)) :=
  if tbl.any (fun row => row.1 == username) then .error .integrityError
  else .ok (tbl ++ [(username, sha256_hexdigest password)])

/-- Embedding of `login_user` (`app.py` lines 34-41): returns the first
`users` row whose username and hashed password both match. -/
def login_user (tbl : List (String × String)) (username password : String) :
    Option (String × String) :=
  let hashed := sha256_hexdigest password
  tbl.find? (fun row => row.1 == username && row.2 == hashed)

/-- C8: registering a fresh username and then logging in with the same
password succeeds, because `add_user` and `login_user` derive the stored
and compared secret with the same SHA-256 hex digest function. -/
theorem register_then_login_roundtrip (tbl : List (String × String)) (u p : String)
    (h : tbl.any (fun row => row.1 == u) = false) :
    ∃ tbl', add_user tbl u p = .ok tbl' ∧ (login_user tbl' u p).isSome = true := by
  refine ⟨tbl ++ [(u, sha256_hexdigest p)], ?_, ?_⟩
  · unfold add_user
    rw [h]
    rfl
  · unfold login_user
    rw [List.find?_isSome]
    exact ⟨(u, sha256_hexdigest p), by simp⟩

/-- Witness for C8 at a concrete input: the empty users table does not
contain the username, and register-then-login succeeds. -/
theorem register_then_login_roundtrip_witness :
    ∃ tbl', add_user [] "alice" "hunter2" = .ok tbl' ∧
      (login_user tbl' "alice" "hunter2").isSome = true :=
  register_then_login_roundtrip [] "alice" "hunter2" rfl

theorem drawList_mem {α : Type} (draw : RNGState → α × RNGState) (P : α → Prop)
    (hd : ∀ s, P (draw s).1) :
    ∀ (n : Nat) (s : RNGState), ∀ v ∈ (drawList draw n s).1, P v := by
  intro n
  induction n with
  | zero => intro s v hv; simp [drawList] at hv
  | succ k ih =>
    intro s v hv
    simp only [drawList] at hv
    rcases List.mem_cons.mp hv with rfl | hmem
    · exact hd s
    · exact ih _ v hmem

theorem bootstrapTree_sample_length (samples : List Sample) (s : RNGState) :
    (bootstrapTree samples s).1.sample.length = samples.length := by
  unfold bootstrapTree
  simp [drawList_length]

theorem bootstrapTree_sample_mem (samples : List Sample) (s : RNGState)
    (hne : samples ≠ []) :
    ∀ v ∈ (bootstrapTree samples s).1.sample, v ∈ samples := by
  intro v hv
  unfold bootstrapTree at hv
  simp only [List.mem_map] at hv
  obtain ⟨k, hk, rfl⟩ := hv
  have hpos : 0 < samples.length := List.length_pos.mpr hne
  have hklt : k < samples.length := by
    refine drawList_mem (randint 0 samples.length) (fun m => m < samples.length)
      ?_ _ s k hk
    intro s'
    unfold randint nextRaw
    simp only [Nat.sub_zero, Nat.zero_add]
    exact Nat.mod_lt _ hpos
  rw [List.getD_eq_getElem _ _ hklt]
  exact List.getElem_mem hklt

theorem buildTrees_spec (samples : List Sample) :
    ∀ (m : Nat) (s : RNGState),
      (buildTrees m samples s).1.length = m ∧
      ∀ t ∈ (buildTrees m samples s).1,
        t.sample.length = samples.length ∧
        (samples ≠ [] → ∀ v ∈ t.sample, v ∈ samples) := by
  intro m
  induction m with
  | zero => intro s; exact ⟨rfl, by simp [buildTrees]⟩
  | succ k ih =>
    intro s
    simp only [buildTrees]
    constructor
    · simp [(ih _).1]
    · intro t ht
      rcases List.mem_cons.mp ht with rfl | hmem
      · exact ⟨bootstrapTree_sample_length samples s,
          fun hne => bootstrapTree_sample_mem samples s hne⟩
      · exact (ih _).2 t hmem

theorem leafOf_subset (t : RFTree) (x : List ℚ) : ∀ v ∈ leafOf t x, v ∈ t.sample := by
  intro v hv
  unfold leafOf at hv
  split at hv
  · exact hv
  · exact (List.mem_filter.mp hv).1

theorem leafOf_ne_nil (t : RFTree) (x : List ℚ) (h : t.sample ≠ []) :
    leafOf t x ≠ [] := by
  unfold leafOf
  split
  · exact h
  · assumption

theorem countOnes_all_one (l : List Sample) (h : ∀ v ∈ l, v.label = 1) :
    countOnes l = l.length := by
  induction l with
  | nil => rfl
  | cons v l ih =>
    have hv := h v (List.mem_cons_self v l)
    simp only [countOnes, List.length_cons, if_pos hv,
      ih (fun u hu => h u (List.mem_cons_of_mem v hu))]
    omega

theorem countOnes_all_zero (l : List Sample) (h : ∀ v ∈ l, v.label = 0) :
    countOnes l = 0 := by
  induction l with
  | nil => rfl
  | cons v l ih =>
    have hv := h v (List.mem_cons_self v l)
    have : ¬ v.label = 1 := by omega
    simp only [countOnes, if_neg this,
      ih (fun u hu => h u (List.mem_cons_of_mem v hu))]

theorem ratioOnes_all_one (l : List Sample) (hne : l ≠ [])
    (h : ∀ v ∈ l, v.label = 1) : ratioOnes l = 1 := by
  unfold ratioOnes
  rw [countOnes_all_one l h]
  have h0 : l.length ≠ 0 := Nat.pos_iff_ne_zero.mp (List.length_pos.mpr hne)
  have : (l.length : ℚ) ≠ 0 := by exact_mod_cast h0
  exact div_self this

theorem ratioOnes_all_zero (l : List Sample) (h : ∀ v ∈ l, v.label = 0) :
    ratioOnes l = 0 := by
  unfold ratioOnes
  rw [countOnes_all_zero l h]
  simp

theorem treeProba_const (t : RFTree) (x : List ℚ) (c : Nat) (hc : c ≤ 1)
    (hne : t.sample ≠ []) (hlab : ∀ v ∈ t.sample, v.label = c) :
    treeProba t x = (c : ℚ) := by
  unfold treeProba
  interval_cases c
  · rw [ratioOnes_all_zero _ (fun v hv => hlab v (leafOf_subset t x v hv))]
    simp
  · rw [ratioOnes_all_one _ (leafOf_ne_nil t x hne)
      (fun v hv => hlab v (leafOf_subset t x v hv))]
    simp

theorem listSumQ_const (l : List ℚ) (q : ℚ) (h : ∀ v ∈ l, v = q) :
    listSumQ l = (l.length : ℚ) * q := by
  induction l with
  | nil => simp [listSumQ]
  | cons x l ih =>
    have hx := h x (List.mem_cons_self x l)
    rw [listSumQ, hx, ih (fun u hu => h u (List.mem_cons_of_mem x hu))]
    simp only [List.length_cons]
    push_cast
    ring

theorem listMeanQ_const (l : List ℚ) (q : ℚ) (hne : l ≠ []) (h : ∀ v ∈ l, v = q) :
    listMeanQ l = q := by
  unfold listMeanQ
  rw [listSumQ_const l q h]
  have h0 : l.length ≠ 0 := Nat.pos_iff_ne_zero.mp (List.length_pos.mpr hne)
  have hl : (l.length : ℚ) ≠ 0 := by exact_mod_cast h0
  exact mul_div_cancel_left₀ q hl

/-- A single-class two-sample training set used to test the claimed
single-class fit failure. -/
def twoOneSamples : List Sample := [⟨[1], 1⟩, ⟨[2], 1⟩]

/-- Counterexample to C4 as stated: fitting a training set whose labels
are all 1 (a single class) does not fail with a training error; it
returns a fitted model (scikit-learn happily fits a single-class
forest). -/
theorem single_class_fit_returns_model :
    rf_fit ["f1"] twoOneSamples (npSeed 0) =
      .ok (⟨(buildTrees 100 twoOneSamples (npSeed 0)).1, ["f1"]⟩,
        (buildTrees 100 twoOneSamples (npSeed 0)).2) :=
  rf_fit_ok ["f1"] twoOneSamples (npSeed 0) (by simp [twoOneSamples])

/-- C4 amended: `fit` fails (with the empty-training-set error) exactly
when the training sequence is empty; on a nonempty single-class training
set it instead succeeds and returns a degenerate model that predicts
that class's probability for every record (never an error). -/
theorem rf_fit_empty_iff_error_and_single_class_degenerate
    (names : List String) (samples : List Sample) (s : RNGState) :
    ((rf_fit names samples s).toOption = none ↔ samples = []) ∧
    (∀ forest sOut, rf_fit names samples s = .ok (forest, sOut) →
      ∀ c : Nat, c ≤ 1 → (∀ v ∈ samples, v.label = c) →
        ∀ x : List (String × ℚ), x.map Prod.fst = names →
          forest.predict_proba x = .ok (c : ℚ)) := by
  constructor
  · constructor
    · intro hnone
      by_contra hne
      rw [rf_fit_ok names samples s hne] at hnone
      exact absurd hnone (by simp [Except.toOption])
    · intro hnil
      subst hnil
      rfl
  · intro forest sOut hfit c hc hlab x hx
    have hne : samples ≠ [] := by
      intro hnil
      subst hnil
      exact absurd hfit (by simp [rf_fit])
    rw [rf_fit_ok names samples s hne] at hfit
    have hforest : forest = ⟨(buildTrees 100 samples s).1, names⟩ :=
      ((Prod.mk.injEq _ _ _ _).mp (Except.ok.inj hfit)).1.symm
    subst hforest
    unfold Forest.predict_proba
    rw [if_pos hx]
    have hlen0 : samples.length ≠ 0 :=
      Nat.pos_iff_ne_zero.mp (List.length_pos.mpr hne)
    have htrees := buildTrees_spec samples 100 s
    have hmap : ∀ v ∈ (buildTrees 100 samples s).1.map
        (fun t => treeProba t (x.map Prod.snd)), v = (c : ℚ) := by
      intro v hv
      simp only [List.mem_map] at hv
      obtain ⟨t, ht, rfl⟩ := hv
      have hts := htrees.2 t ht
      have htne : t.sample ≠ [] := by
        intro hnil
        rw [hnil] at hts
        exact hlen0 hts.1.symm
      exact treeProba_const t _ c hc htne
        (fun v hv => hlab v (hts.2 hne v hv))
    have hmapne : (buildTrees 100 samples s).1.map
        (fun t => treeProba t (x.map Prod.snd)) ≠ [] := by
      intro hnil
      have := congrArg List.length hnil
      rw [List.length_map, htrees.1] at this
      exact absurd this (by norm_num)
    rw [listMeanQ_const _ _ hmapne hmap]

/-- Witness for the amended C4 at concrete inputs: the empty training
set makes `fit` fail, and the all-ones two-sample training set yields a
model predicting probability 1 for a concrete record. -/
theorem rf_fit_empty_and_single_class_witness :
    (rf_fit ["f1"] ([] : List Sample) (npSeed 0)).toOption = none ∧
    Forest.predict_proba ⟨(buildTrees 100 twoOneSamples (npSeed 0)).1, ["f1"]⟩
      [("f1", 3)] = .ok 1 := by
  constructor
  · exact (rf_fit_empty_iff_error_and_single_class_degenerate
      ["f1"] [] (npSeed 0)).1.mpr rfl
  · have h := (rf_fit_empty_iff_error_and_single_class_degenerate
      ["f1"] twoOneSamples (npSeed 0)).2
      ⟨(buildTrees 100 twoOneSamples (npSeed 0)).1, ["f1"]⟩
      (buildTrees 100 twoOneSamples (npSeed 0)).2
      (rf_fit_ok ["f1"] twoOneSamples (npSeed 0) (by simp [twoOneSamples]))
      1 (by norm_num)
      (by
        intro v hv
        simp only [twoOneSamples, List.mem_cons, List.not_mem_nil, or_false] at hv
        rcases hv with rfl | rfl <;> rfl)
      [("f1", 3)] rfl
    simpa using h

/-- C5: scoring a record whose field count or field order differs from
the data-frame columns `fit` was called with fails with a shape error
rather than silently producing a prediction. -/
theorem predict_proba_shape_mismatch (f : Forest) (x : List (String × ℚ))
    (h : x.map Prod.fst ≠ f.feature_names) :
    f.predict_proba x = .error .featureNamesMismatch := by
  unfold Forest.predict_proba
  rw [if_neg h]

/-- Witness for C5 at a concrete fitted model and record: a record with
a wrong column name is rejected. -/
theorem predict_proba_shape_mismatch_witness :
    Forest.predict_proba ⟨[], ["a"]⟩ [("b", 0)] = .error .featureNamesMismatch :=
  predict_proba_shape_mismatch ⟨[], ["a"]⟩ [("b", 0)] (by simp)

/-- Python's built-in `round` to an integer: round-half-to-even
(banker's rounding). -/
def roundHalfEven (x : ℚ) : ℤ :=
  if Int.fract x < 1/2 then ⌊x⌋
  else if Int.fract x > 1/2 then ⌊x⌋ + 1
  else if 2 ∣ ⌊x⌋ then ⌊x⌋ else ⌊x⌋ + 1

/-- Embedding of `round(x, 4)` (`app.py` lines 234-235): the value
rounded half-to-even at the fourth decimal digit. -/
def pyRound4 (x : ℚ) : ℚ := (roundHalfEven (x * 10000) : ℚ) / 10000

theorem roundHalfEven_close (y : ℚ) : |(roundHalfEven y : ℚ) - y| ≤ 1/2 := by
  have h0 : 0 ≤ Int.fract y := Int.fract_nonneg y
  have h1 : Int.fract y < 1 := Int.fract_lt_one y
  have hsum : (⌊y⌋ : ℚ) + Int.fract y = y := Int.floor_add_fract y
  unfold roundHalfEven
  split
  · rw [abs_le]
    push_cast
    constructor <;> linarith
  · split
    · rw [abs_le]
      push_cast
      constructor <;> linarith
    · split <;>
      · rw [abs_le]
        push_cast
        constructor <;> linarith

/-- The 4-decimal rounding is within half a unit in the fourth decimal
place of the exact value. -/
theorem pyRound4_close (x : ℚ) : |pyRound4 x - x| ≤ 1/20000 := by
  have h := roundHalfEven_close (x * 10000)
  unfold pyRound4
  have heq : (roundHalfEven (x * 10000) : ℚ) / 10000 - x =
      ((roundHalfEven (x * 10000) : ℚ) - x * 10000) / 10000 := by ring
  rw [heq, abs_div]
  have habs : |(10000 : ℚ)| = 10000 := by norm_num
  rw [habs]
  rw [div_le_iff (by norm_num : (0 : ℚ) < 10000)]
  linarith

/-- Calendar time as produced by `datetime.now()`. -/
structure PyDateTime where
  year : Nat
  month : Nat
  day : Nat
  hour : Nat
  minute : Nat
  second : Nat
deriving DecidableEq

def digitChar (n : Nat) : Char :=
  match n % 10 with
  | 0 => '0' | 1 => '1' | 2 => '2' | 3 => '3' | 4 => '4'
  | 5 => '5' | 6 => '6' | 7 => '7' | 8 => '8' | _ => '9'

/-- Zero-padded two-digit rendering (`%m`, `%d`, `%H`, `%M`, `%S`). -/
def pad2digits (n : Nat) : List Char := [digitChar (n / 10), digitChar n]

/-- Four-digit year rendering (`%Y` for in-range years). -/
def pad4digits (n : Nat) : List Char :=
  [digitChar (n / 1000), digitChar (n / 100), digitChar (n / 10), digitChar n]

/-- Embedding of `datetime.now().strftime("%Y-%m-%d %H:%M:%S")`
(`app.py` line 236) for in-range date components. -/
def strftimeYmdHMS (t : PyDateTime) : String :=
  String.mk (pad4digits t.year ++ '-' :: (pad2digits t.month ++ '-' :: (pad2digits t.day ++
    ' ' :: (pad2digits t.hour ++ ':' :: (pad2digits t.minute ++ ':' :: pad2digits t.second)))))

def isDigitCh (c : Char) : Bool := decide (48 ≤ c.toNat) && decide (c.toNat ≤ 57)

/-- Checks the `YYYY-MM-DD HH:MM:SS` shape: 19 characters, digits in the
date and time positions, and the fixed separators. -/
def tsFormatOK (s : String) : Bool :=
  match s.data with
  | [y1, y2, y3, y4, q1, mo1, mo2, q2, d1, d2, sp, hh1, hh2, k1, mi1, mi2, k2, e1, e2] =>
    isDigitCh y1 && isDigitCh y2 && isDigitCh y3 && isDigitCh y4 &&
    (q1 == '-') && isDigitCh mo1 && isDigitCh mo2 && (q2 == '-') &&
    isDigitCh d1 && isDigitCh d2 && (sp == ' ') &&
    isDigitCh hh1 && isDigitCh hh2 && (k1 == ':') &&
    isDigitCh mi1 && isDigitCh mi2 && (k2 == ':') &&
    isDigitCh e1 && isDigitCh e2
  | _ => false

theorem isDigitCh_digitChar (n : Nat) : isDigitCh (digitChar n) = true := by
  unfold digitChar
  have hlt : n % 10 < 10 := Nat.mod_lt _ (by norm_num)
  generalize hg : n % 10 = m at hlt ⊢
  interval_cases m <;> rfl

/-- The embedded `strftime` always yields the timestamp shape. -/
theorem tsFormatOK_strftime (t : PyDateTime) : tsFormatOK (strftimeYmdHMS t) = true := by
  unfold strftimeYmdHMS tsFormatOK pad4digits pad2digits
  simp only [List.cons_append, List.nil_append]
  simp [isDigitCh_digitChar]

/-- The values collected by the input form (`app.py` lines 190-204). -/
structure SubmitInput where
  name : String
  age : ℚ
  region : String
  income : ℚ
  loan_amt : ℚ
  credit_score : ℚ
  past_defaults : ℚ
  temperature : ℚ
  ph : ℚ
  ammonia : ℚ
  do_level : ℚ
  turbidity : ℚ
deriving DecidableEq

/-- The one-row scoring data frame `fin_input` (`app.py` lines 209-210). -/
def fin_input (inp : SubmitInput) : List (String × ℚ) :=
  [("annual_income", inp.income), ("loan_amount", inp.loan_amt),
   ("credit_score", inp.credit_score), ("past_defaults", inp.past_defaults)]

/-- The one-row scoring data frame `tech_input` (`app.py` lines 211-212). -/
def tech_input (inp : SubmitInput) : List (String × ℚ) :=
  [("temperature", inp.temperature), ("pH", inp.ph), ("ammonia", inp.ammonia),
   ("dissolved_oxygen", inp.do_level), ("turbidity", inp.turbidity)]

/-- Embedding of the submit handler (`app.py` lines 208-239): score the
two one-row data frames, build the result record with the probabilities
rounded to 4 decimals and the formatted current time, and append it to
the ledger. -/
def submitStep (db : AquaDB) (loan_model farm_model : Forest) (inp : SubmitInput)
    (now : PyDateTime) : Except ShapeError (OutputRow × AquaDB) :=
  match loan_model.predict_proba (fin_input inp) with
  | .error e => .error e
  | .ok fin_risk =>
    match farm_model.predict_proba (tech_input inp) with
    | .error e => .error e
    | .ok tech_risk =>
      let row : OutputRow :=
        { name := inp.name, age := inp.age, region := inp.region, income := inp.income,
          loan_amount := inp.loan_amt, credit_score := inp.credit_score,
          past_defaults := inp.past_defaults, temperature := inp.temperature,
          pH := inp.ph, ammonia := inp.ammonia, do_level := inp.do_level,
          turbidity := inp.turbidity, financial_risk := pyRound4 fin_risk,
          technical_risk := pyRound4 tech_risk, result_time := strftimeYmdHMS now }
      .ok (row, save_result db row)

/-- C6: whenever a submitted record is scored, the two produced risk
values are probabilities in the unit interval, and the persisted result
row stores them rounded to 4 decimal places (an integer number of
ten-thousandths, within half a ten-thousandth of the exact value)
together with the `YYYY-MM-DD HH:MM:SS` timestamp of the submission. -/
theorem submit_result_rounded_and_timestamped
    (db : AquaDB) (loan_model farm_model : Forest) (inp : SubmitInput)
    (now : PyDateTime) (row : OutputRow) (db' : AquaDB)
    (hok : submitStep db loan_model farm_model inp now = .ok (row, db')) :
    (∃ p, loan_model.predict_proba (fin_input inp) = .ok p ∧ 0 ≤ p ∧ p ≤ 1 ∧
      row.financial_risk = pyRound4 p ∧ |row.financial_risk - p| ≤ 1/20000 ∧
      ∃ k : ℤ, row.financial_risk = (k : ℚ) / 10000) ∧
    (∃ q, farm_model.predict_proba (tech_input inp) = .ok q ∧ 0 ≤ q ∧ q ≤ 1 ∧
      row.technical_risk = pyRound4 q ∧ |row.technical_risk - q| ≤ 1/20000 ∧
      ∃ k : ℤ, row.technical_risk = (k : ℚ) / 10000) ∧
    row.result_time = strftimeYmdHMS now ∧
    tsFormatOK row.result_time = true ∧
    db'.model_outputs.getLast? = some row := by
  unfold submitStep at hok
  cases hfin : loan_model.predict_proba (fin_input inp) with
  | error e => rw [hfin] at hok; exact absurd hok (by simp)
  | ok p =>
    rw [hfin] at hok
    cases htech : farm_model.predict_proba (tech_input inp) with
    | error e => rw [htech] at hok; exact absurd hok (by simp)
    | ok q =>
      rw [htech] at hok
      have hpair := Except.ok.inj hok
      have hrow : row = (⟨inp.name, inp.age, inp.region, inp.income, inp.loan_amt,
          inp.credit_score, inp.past_defaults, inp.temperature, inp.ph, inp.ammonia,
          inp.do_level, inp.turbidity, pyRound4 p, pyRound4 q,
          strftimeYmdHMS now⟩ : OutputRow) :=
        (congrArg Prod.fst hpair).symm
      subst hrow
      have hp := predict_proba_mem_unit _ _ _ hfin
      have hq := predict_proba_mem_unit _ _ _ htech
      have hdb : db' = save_result db (⟨inp.name, inp.age, inp.region, inp.income,
          inp.loan_amt, inp.credit_score, inp.past_defaults, inp.temperature, inp.ph,
          inp.ammonia, inp.do_level, inp.turbidity, pyRound4 p, pyRound4 q,
          strftimeYmdHMS now⟩ : OutputRow) :=
        (congrArg Prod.snd hpair).symm
      subst hdb
      refine ⟨⟨p, rfl, hp.1, hp.2, rfl, pyRound4_close p, ⟨roundHalfEven (p * 10000), rfl⟩⟩,
        ⟨q, rfl, hq.1, hq.2, rfl, pyRound4_close q, ⟨roundHalfEven (q * 10000), rfl⟩⟩,
        rfl, tsFormatOK_strftime now, by simp [save_result]⟩

/-- Quantities of a submit outcome observable to the caller as the two
risk values (the ledger state and the timestamp are projected away). -/
def submitRisks (r : Except ShapeError (OutputRow × AquaDB)) : Option (ℚ × ℚ) :=
  r.toOption.map (fun pr => (pr.1.financial_risk, pr.1.technical_risk))

/-- C7: scoring the same record twice against the same fitted models
(with no refit in between) produces identical risk values both times,
whatever ledger state and clock time each call ran with: prediction
reads no mutable state and consumes no randomness. -/
theorem scoring_idempotent (loan_model farm_model : Forest) (inp : SubmitInput)
    (db₁ db₂ : AquaDB) (t₁ t₂ : PyDateTime) :
    submitRisks (submitStep db₁ loan_model farm_model inp t₁) =
    submitRisks (submitStep db₂ loan_model farm_model inp t₂) := by
  unfold submitStep submitRisks
  cases loan_model.predict_proba (fin_input inp) with
  | error e => rfl
  | ok p =>
    cases farm_model.predict_proba (tech_input inp) with
    | error e => rfl
    | ok q => rfl

/-- A tiny concrete fitted loan model (one tree, one all-ones sample). -/
def finModelW : Forest := ⟨[⟨[⟨[1, 1, 1, 1], 1⟩]⟩], finFeatureNames⟩

/-- A tiny concrete fitted farm model (one tree, one label-0 sample). -/
def techModelW : Forest := ⟨[⟨[⟨[1, 1, 1, 1, 1], 0⟩]⟩], techFeatureNames⟩

/-- A concrete form submission (the form's default values). -/
def submitInputW : SubmitInput :=
  ⟨"farmer", 35, "Odisha", 250000, 150000, 650, 0, 28, 15/2, 1/5, 6, 15⟩

/-- A concrete submission time. -/
def nowW : PyDateTime := ⟨2024, 1, 2, 3, 4, 5⟩

/-- The ledger row the concrete submission produces. -/
def rowW : OutputRow :=
  ⟨"farmer", 35, "Odisha", 250000, 150000, 650, 0, 28, 15/2, 1/5, 6, 15, 1, 0,
   "2024-01-02 03:04:05"⟩

instance instDecEqExceptLocal {ε α : Type} [DecidableEq ε] [DecidableEq α] :
    DecidableEq (Except ε α) := fun x y =>
  match x, y with
  | .error a, .error b =>
    if h : a = b then isTrue (by rw [h]) else isFalse (fun he => h (Except.error.inj he))
  | .ok a, .ok b =>
    if h : a = b then isTrue (by rw [h]) else isFalse (fun he => h (Except.ok.inj he))
  | .error _, .ok _ => isFalse (fun he => Except.noConfusion he)
  | .ok _, .error _ => isFalse (fun he => Except.noConfusion he)

theorem roundHalfEven_intCast (k : ℤ) : roundHalfEven (k : ℚ) = k := by
  unfold roundHalfEven
  rw [Int.fract_intCast, Int.floor_intCast]
  norm_num

theorem pyRound4_one : pyRound4 1 = 1 := by
  unfold pyRound4
  rw [show (1 : ℚ) * 10000 = ((10000 : ℤ) : ℚ) by norm_num, roundHalfEven_intCast]
  norm_num

theorem pyRound4_zero : pyRound4 0 = 0 := by
  unfold pyRound4
  rw [show (0 : ℚ) * 10000 = ((0 : ℤ) : ℚ) by norm_num, roundHalfEven_intCast]
  norm_num

theorem finModelW_predicts_one (x : List (String × ℚ))
    (hx : x.map Prod.fst = finFeatureNames) :
    finModelW.predict_proba x = .ok 1 := by
  unfold Forest.predict_proba
  rw [if_pos (by rw [hx]; rfl)]
  rw [listMeanQ_const _ 1 (by simp [finModelW]) ?_]
  intro v hv
  simp only [finModelW, List.map_cons, List.map_nil, List.mem_singleton] at hv
  subst hv
  have := treeProba_const ⟨[⟨[1, 1, 1, 1], 1⟩]⟩ (x.map Prod.snd) 1 (le_refl 1)
    (by simp) (by intro v hv; simp at hv; rw [hv])
  simpa using this

theorem techModelW_predicts_zero (x : List (String × ℚ))
    (hx : x.map Prod.fst = techFeatureNames) :
    techModelW.predict_proba x = .ok 0 := by
  unfold Forest.predict_proba
  rw [if_pos (by rw [hx]; rfl)]
  rw [listMeanQ_const _ 0 (by simp [techModelW]) ?_]
  intro v hv
  simp only [techModelW, List.map_cons, List.map_nil, List.mem_singleton] at hv
  subst hv
  have := treeProba_const ⟨[⟨[1, 1, 1, 1, 1], 0⟩]⟩ (x.map Prod.snd) 0 (by norm_num)
    (by simp) (by intro v hv; simp at hv; rw [hv])
  simpa using this

/-- Witness for C6 at the concrete submission: the handler really
produces this row, whose stored risk is a rounded probability and whose
timestamp has the `YYYY-MM-DD HH:MM:SS` shape. -/
theorem submit_result_rounded_witness :
    (∃ p, Forest.predict_proba finModelW (fin_input submitInputW) = .ok p ∧ 0 ≤ p ∧ p ≤ 1 ∧
      rowW.financial_risk = pyRound4 p ∧ |rowW.financial_risk - p| ≤ 1/20000 ∧
      ∃ k : ℤ, rowW.financial_risk = (k : ℚ) / 10000) ∧
    rowW.result_time = strftimeYmdHMS nowW ∧
    tsFormatOK rowW.result_time = true := by
  have hok : submitStep ⟨[], []⟩ finModelW techModelW submitInputW nowW =
      .ok (rowW, save_result ⟨[], []⟩ rowW) := by
    unfold submitStep
    rw [finModelW_predicts_one (fin_input submitInputW) (by rfl),
      techModelW_predicts_zero (tech_input submitInputW) (by rfl)]
    simp only [pyRound4_one, pyRound4_zero,
      show strftimeYmdHMS nowW = "2024-01-02 03:04:05" from by decide]
    rfl
  have h := submit_result_rounded_and_timestamped ⟨[], []⟩ finModelW techModelW
    submitInputW nowW rowW (save_result ⟨[], []⟩ rowW) hok
  exact ⟨h.1, h.2.2.1, h.2.2.2.1⟩

/-- One row of `data/sample_loan_data.csv` as used by the standalone
training script: the four feature columns it selects, plus whatever
`risk` label the file may already carry (overwritten by the script). -/
structure LoanCsvRow where
  income : ℚ
  farm_size : ℚ
  loan_amount : ℚ
  prev_defaults : ℚ
  risk : Nat
deriving DecidableEq

/-- Error raised by pandas when a column assignment's value list length
differs from the frame's row count. -/
inductive PandasError where
  | lengthMismatch
deriving DecidableEq

/-- Embedding of `df['risk'] = [0, 1, 0]`
(`ml_models/train_failure_model.py` line 10): overwrites the label
column with the fixed list, raising unless the frame has exactly 3
rows. -/
def assignRiskColumn (rows : List LoanCsvRow) :
    Except PandasError (List (LoanCsvRow × Nat)) :=
  if rows.length = 3 then .ok (rows.zip [0, 1, 0]) else .error .lengthMismatch

/-- Error of the standalone training script. -/
inductive ScriptError where
  | pandas (e : PandasError)
  | training (e : TrainingError)
deriving DecidableEq

/-- Columns of `X = df[['income', 'farm_size', 'loan_amount', 'prev_defaults']]`. -/
def scriptFeatureNames : List String :=
  ["income", "farm_size", "loan_amount", "prev_defaults"]

/-- A relabeled CSV row as a training sample of the script's model. -/
def scriptSample (p : LoanCsvRow × Nat) : Sample :=
  ⟨[p.1.income, p.1.farm_size, p.1.loan_amount, p.1.prev_defaults], p.2⟩

/-- Embedding of the standalone training script
(`ml_models/train_failure_model.py`): overwrite the risk column with
[0, 1, 0], select the four feature columns, and fit a
`RandomForestClassifier(n_estimators=100, random_state=42)` (the fixed
`random_state` seeds a private generator). -/
def train_failure_script (rows : List LoanCsvRow) : Except ScriptError Forest :=
  match assignRiskColumn rows with
  | .error e => .error (.pandas e)
  | .ok labeled =>
    match rf_fit scriptFeatureNames (labeled.map scriptSample) (npSeed 42) with
    | .error e => .error (.training e)
    | .ok (f, _) => .ok f

/-- C10: the training script overwrites any label in the loaded CSV with
the fixed list [0, 1, 0], so it succeeds exactly when the CSV has 3 rows
(otherwise the column assignment fails), and whenever it trains at all
its training labels are [0, 1, 0] — regardless of the file's own risk
values — so the training set contains both classes. -/
theorem train_failure_script_overwrites_labels (rows : List LoanCsvRow) :
    ((∃ f, train_failure_script rows = .ok f) ↔ rows.length = 3) ∧
    (rows.length ≠ 3 →
      train_failure_script rows = .error (.pandas .lengthMismatch)) ∧
    (rows.length = 3 →
      ((rows.zip [0, 1, 0]).map scriptSample).map Sample.label = [0, 1, 0] ∧
      0 ∈ ((rows.zip [0, 1, 0]).map scriptSample).map Sample.label ∧
      1 ∈ ((rows.zip [0, 1, 0]).map scriptSample).map Sample.label) := by
  have herr : rows.length ≠ 3 →
      train_failure_script rows = .error (.pandas .lengthMismatch) := by
    intro hne
    unfold train_failure_script assignRiskColumn
    rw [if_neg hne]
  have hok : rows.length = 3 → ∃ f, train_failure_script rows = .ok f := by
    intro h3
    obtain ⟨a, b, c, rfl⟩ := List.length_eq_three.mp h3
    refine ⟨⟨(buildTrees 100 ([(a, 0), (b, 1), (c, 0)].map scriptSample) (npSeed 42)).1,
      scriptFeatureNames⟩, ?_⟩
    unfold train_failure_script assignRiskColumn
    rw [if_pos (show ([a, b, c] : List LoanCsvRow).length = 3 from rfl)]
    have hfit := rf_fit_ok scriptFeatureNames
      ([(a, 0), (b, 1), (c, 0)].map scriptSample) (npSeed 42) (by simp)
    simp only [List.zip_cons_cons, List.zip_nil_right]
    rw [hfit]
  refine ⟨⟨?_, hok⟩, herr, ?_⟩
  · rintro ⟨f, hf⟩
    by_contra hne
    rw [herr hne] at hf
    exact absurd hf (by simp)
  · intro h3
    obtain ⟨a, b, c, rfl⟩ := List.length_eq_three.mp h3
    refine ⟨rfl, ?_, ?_⟩ <;> simp [scriptSample]

/-- Witness for C10 at concrete inputs: a 3-row CSV (with its own risk
labels, all 7) trains successfully with labels forced to [0, 1, 0]; a
1-row CSV fails on the column assignment. -/
theorem train_failure_script_witness :
    (∃ f, train_failure_script [⟨1, 2, 3, 0, 7⟩, ⟨4, 5, 6, 1, 7⟩, ⟨7, 8, 9, 2, 7⟩] = .ok f) ∧
    train_failure_script [⟨1, 2, 3, 0, 7⟩] = .error (.pandas .lengthMismatch) ∧
    (([⟨1, 2, 3, 0, 7⟩, ⟨4, 5, 6, 1, 7⟩, ⟨7, 8, 9, 2, 7⟩].zip
      ([0, 1, 0] : List Nat)).map scriptSample).map Sample.label = [0, 1, 0] := by
  refine ⟨(train_failure_script_overwrites_labels _).1.mpr (by decide),
    (train_failure_script_overwrites_labels [⟨1, 2, 3, 0, 7⟩]).2.1 (by decide),
    ((train_failure_script_overwrites_labels _).2.2 (by decide)).1⟩

/-- The first row of the generated water-quality table. -/
def firstWaterRow : WaterRow :=
  ((load_simulated_data (npSeed 0)).1.2).headD (mkWaterRow 0 0 0 0 0)

/-- Witness for C1 at concrete generator states: generation from two
different ambient states agrees, the tables have 500 rows, and the first
generated water row's label obeys the failure rule. -/
theorem load_simulated_data_witness :
    (load_simulated_data (npSeed 0)).1 = (load_simulated_data (npSeed 7)).1 ∧
    (load_simulated_data (npSeed 0)).1.1.length = 500 ∧
    firstWaterRow.farm_failure =
      (if firstWaterRow.ammonia > 1/2 ∨ firstWaterRow.dissolved_oxygen < 4 ∨
        firstWaterRow.pH < 13/2 ∨ firstWaterRow.pH > 17/2 then 1 else 0) := by
  have h := load_simulated_data_deterministic_and_labels (npSeed 0) (npSeed 7)
  refine ⟨h.1, h.2.1, ?_⟩
  apply h.2.2.2
  have hlen := load_simulated_data_water_length (npSeed 0)
  unfold firstWaterRow
  rcases hl : (load_simulated_data (npSeed 0)).1.2 with - | ⟨a, rest⟩
  · rw [hl] at hlen
    exact absurd hlen (by simp)
  · simp
